import Mathlib

set_option maxRecDepth 40000

/-!
Verification development for the monthly spending planner.

The allowance redistribution engine lives in the route component
(`spendingData` in the main route file); the persistence layer is the pair
of server functions `updatePlanSettings` / `upsertDailySpending` together
with the drizzle schema (`spending_plans`, `daily_spending`).

Modelling choices:
* Monetary values are rationals; the source computes with JS numbers, and
  the arithmetic of the engine (`+ - * /`) is modelled exactly.
* A JS `Date` normalized to midnight is modelled by its civil day number
  (days since 1970-01-01, proleptic Gregorian).  All `Date` values the
  engine builds or compares are midnight-normalized, so `<` on timestamps
  coincides with `<` on day numbers, and `getTime()` equality coincides
  with day-number equality.
* `new Date(year, month, day)` follows the ECMAScript constructor:
  `MakeFullYear` on the year argument (years 0–99 denote 1900+year), then
  `MakeDay` (month normalization by floored division, day offsets from the
  first of the month); `getDate()` follows ECMAScript `DateFromTime` (year
  from day number, then day-within-year minus the month offset).
* `parseFloat(s) || 0` is modelled by a prefix parser for the decimal
  literal grammar; an unparseable prefix yields `none` (JS `NaN`) and the
  `|| 0` collapse maps both `none` and a parsed `0` to `0`.  Non-finite
  results (`Infinity`) are not representable in the rational model.
-/

/-- Gregorian leap-year rule, as in ECMAScript `DaysInYear`
(`y % 4 == 0 && y % 100 != 0 || y % 400 == 0`). -/
def isLeapYear (y : ℤ) : Bool :=
  (y % 4 == 0 && y % 100 != 0) || y % 400 == 0

/-- Cumulative day offsets of the first of each month in a non-leap year
(ECMAScript day-within-year month boundaries). -/
def monthOffsets : List ℤ :=
  [0, 31, 59, 90, 120, 151, 181, 212, 243, 273, 304, 334]

/-- ECMAScript `DayFromYear`: the day number of January 1 of year `y`,
counted from the epoch 1970-01-01. -/
def dayFromYear (y : ℤ) : ℤ :=
  365 * (y - 1970) + (y - 1969).fdiv 4 - (y - 1901).fdiv 100 + (y - 1601).fdiv 400

/-- ECMAScript `MakeFullYear`, applied by the `Date` constructor to its
year argument before `MakeDay`: years 0–99 denote 1900+year; every other
year is taken as-is. -/
def makeFullYear (y : ℤ) : ℤ :=
  if 0 ≤ y ∧ y ≤ 99 then 1900 + y else y

/-- ECMAScript `MakeDay` on an already-resolved year: the month is
normalized by floored division; the day component is a plain offset from
the first of the normalized month, so day `0` denotes the day before the
first. -/
def ecmaMakeDay (year month day : ℤ) : ℤ :=
  let ym := year + month.fdiv 12
  let mn := month % 12
  dayFromYear ym + monthOffsets.getD mn.toNat 0 +
    (if 2 ≤ mn ∧ isLeapYear ym = true then 1 else 0) + (day - 1)

/-- The day number of `new Date(year, month, day)` (midnight, local time
abstracted away): the constructor resolves the year with `MakeFullYear`
and then applies `MakeDay`. -/
def makeDay (year month day : ℤ) : ℤ :=
  ecmaMakeDay (makeFullYear year) month day

/-- Days from January 1 of a 400-year-cycle start year to January 1 of the
year `t` years later (valid for `0 ≤ t ≤ 400`): `365 t` plus the leap days
among the first `t` years of the cycle. -/
def cycleOffset (t : ℤ) : ℤ :=
  365 * t + (t + 3).fdiv 4 - (t + 99).fdiv 100 + (t + 399).fdiv 400

/-- ECMAScript `YearFromTime` for a day number: the unique year whose
January 1 is the latest one not after the given day.  Computed by reducing
into the 400-year Gregorian cycle anchored at 1600 and correcting a
365-day first guess. -/
def yearFromDay (d : ℤ) : ℤ :=
  let c := d - dayFromYear 1600
  let era := c.fdiv 146097
  let doe := c - era * 146097
  let g := doe.fdiv 365
  let yoe := if cycleOffset g ≤ doe then g
             else if cycleOffset (g - 1) ≤ doe then g - 1
             else g - 2
  1600 + era * 400 + yoe

/-- ECMAScript `DateFromTime` given the day-within-year and the leap flag:
one if-branch per month, subtracting that month's first-day offset. -/
def dateFromDwy (dwy : ℤ) (leapB : Bool) : ℤ :=
  let leap : ℤ := if leapB then 1 else 0
  if dwy < 31 then dwy + 1
  else if dwy < 59 + leap then dwy - 30
  else if dwy < 90 + leap then dwy - 58 - leap
  else if dwy < 120 + leap then dwy - 89 - leap
  else if dwy < 151 + leap then dwy - 119 - leap
  else if dwy < 181 + leap then dwy - 150 - leap
  else if dwy < 212 + leap then dwy - 180 - leap
  else if dwy < 243 + leap then dwy - 211 - leap
  else if dwy < 273 + leap then dwy - 242 - leap
  else if dwy < 304 + leap then dwy - 272 - leap
  else if dwy < 334 + leap then dwy - 303 - leap
  else dwy - 333 - leap

/-- JS `Date.prototype.getDate` on a midnight day number: the day of the
month, via `YearFromTime` and `DateFromTime`. -/
def getDate (d : ℤ) : ℤ :=
  let y := yearFromDay d
  dateFromDwy (d - dayFromYear y) (isLeapYear y)

/-- Source `getDaysInMonth(year, month)`:
`new Date(year, month + 1, 0).getDate()` — the day before the first of the
next month. -/
def getDaysInMonth (year month : ℤ) : ℤ :=
  getDate (makeDay year (month + 1) 0)

/-- Month length computed from a `MakeFullYear`-resolved year (the
composition `getDaysInMonth` actually evaluates after the constructor's
year remap); stated separately because it is 400-year periodic in the
year, which the remapped `getDaysInMonth` is not. -/
def ecmaDaysInMonth (year month : ℤ) : ℤ :=
  getDate (ecmaMakeDay year (month + 1) 0)

/-- Reference month lengths of the civil Gregorian calendar, stated from
the specification's words: 31/28(29 in leap years)/31/30/… days for the
0-based months January … December. -/
def gregDaysInMonth (y m : ℤ) : ℤ :=
  if m = 0 then 31
  else if m = 1 then (if isLeapYear y then 29 else 28)
  else if m = 2 then 31
  else if m = 3 then 30
  else if m = 4 then 31
  else if m = 5 then 30
  else if m = 6 then 31
  else if m = 7 then 31
  else if m = 8 then 30
  else if m = 9 then 31
  else if m = 10 then 30
  else 31

/-- JS `String.prototype.padStart(2, "0")`. -/
def padTwo (s : String) : String :=
  if s.length < 2 then String.mk (List.replicate (2 - s.length) '0') ++ s else s

/-- Source `formatDateKey(year, month, day)`: the template literal
`year-MM-DD` with the 1-based month and the day left-padded to width 2. -/
def formatDateKey (year month day : ℤ) : String :=
  toString year ++ "-" ++ padTwo (toString (month + 1)) ++ "-" ++ padTwo (toString day)

/-- Longest digit prefix of a character list: its value, how many digits
were consumed, and the rest. -/
def digitsVal : List Char → ℕ → ℕ × ℕ × List Char
  | [], acc => (acc, 0, [])
  | c :: cs, acc =>
    if c.isDigit then
      let r := digitsVal cs (10 * acc + (c.toNat - 48))
      (r.1, r.2.1 + 1, r.2.2)
    else (acc, 0, c :: cs)

/-- JS `parseFloat`: strip leading whitespace, then parse the longest
prefix matching the decimal literal grammar (sign, integer digits,
optional fraction, optional exponent).  `none` models `NaN` (no valid
prefix). -/
def jsParseFloat (s : String) : Option ℚ :=
  let l0 := s.toList.dropWhile (fun c => c.isWhitespace)
  let signAndRest : ℚ × List Char :=
    match l0 with
    | '-' :: r => (-1, r)
    | '+' :: r => (1, r)
    | _ => (1, l0)
  let sign := signAndRest.1
  let l1 := signAndRest.2
  let ipart := digitsVal l1 0
  let ival := ipart.1
  let icnt := ipart.2.1
  let l2 := ipart.2.2
  let fpart :=
    match l2 with
    | '.' :: r => digitsVal r 0
    | _ => (0, 0, l2)
  let fval := fpart.1
  let fcnt := fpart.2.1
  let l3 := fpart.2.2
  if icnt = 0 ∧ fcnt = 0 then none
  else
    let mant : ℚ := sign * ((ival : ℚ) + (fval : ℚ) / (10 : ℚ) ^ fcnt)
    let exp : ℤ :=
      match l3 with
      | c :: r =>
        if c = 'e' ∨ c = 'E' then
          match r with
          | '-' :: r2 =>
            let e := digitsVal r2 0
            if e.2.1 = 0 then 0 else -(e.1 : ℤ)
          | '+' :: r2 =>
            let e := digitsVal r2 0
            if e.2.1 = 0 then 0 else (e.1 : ℤ)
          | _ =>
            let e := digitsVal r 0
            if e.2.1 = 0 then 0 else (e.1 : ℤ)
        else 0
      | [] => 0
    some (mant * (10 : ℚ) ^ exp)

/-- Source pattern `parseFloat(s) || 0`: an unparseable string (JS `NaN`)
falls back to `0`; a parsed `0` is also `0`, so the collapse is `getD 0`. -/
def parseOrZero (s : String) : ℚ :=
  (jsParseFloat s).getD 0

/-- One row of the engine's `days` array (the `formattedDate` field, a
locale-dependent display string, is presentation-only and omitted). -/
structure DayAllowance where
  date : ℤ
  dateKey : String
  allowedSpending : ℚ
  spent : ℚ
  isPast : Bool
  isToday : Bool
  deriving DecidableEq

/-- The record returned by the `spendingData` computation. -/
structure SpendingData where
  days : List DayAllowance
  totalAmount : ℚ
  desiredSaving : ℚ
  availableMoney : ℚ
  baseDailyAllowance : ℚ
  rollover : ℚ
  deriving DecidableEq

/-- The `spentMap[dateKey] ?? 0` lookup: a recorded raw value is parsed
with `parseFloat(...) || 0`; an absent date means `0` spent. -/
def spentLookup (spentByDate : String → Option String) (k : String) : ℚ :=
  match spentByDate k with
  | some v => parseOrZero v
  | none => 0

/-- One iteration of the source's day loop: classify the day against
`today`, accumulate rollover for a past day, and compute its allowed
spending.  State is `(rollover, remainingDays, days)`. -/
def dayStep (year month daysCount : ℤ) (availableMoney : ℚ)
    (spentOf : String → ℚ) (today : ℤ)
    (st : ℚ × ℤ × List DayAllowance) (day : ℕ) : ℚ × ℤ × List DayAllowance :=
  let rollover0 := st.1
  let remainingDays0 := st.2.1
  let acc := st.2.2
  let date := makeDay year month (day : ℤ)
  let dateKey := formatDateKey year month (day : ℤ)
  let isPast : Bool := decide (date < today)
  let isToday : Bool := decide (date = today)
  let spent := spentOf dateKey
  let daysFromHere : ℚ := (daysCount : ℚ) - (day : ℚ) + 1
  let rollover :=
    if isPast then rollover0 + availableMoney / (daysCount : ℚ) - spent else rollover0
  let remainingDays := if isPast then remainingDays0 - 1 else remainingDays0
  let allowedSpending : ℚ :=
    if isPast then availableMoney / (daysCount : ℚ)
    else (availableMoney / (daysCount : ℚ) * ((daysCount : ℚ) - (day : ℚ) + 1) + rollover) /
      daysFromHere
  (rollover, remainingDays,
    acc ++ [({ date, dateKey, allowedSpending, spent, isPast, isToday } : DayAllowance)])

/-- The source's `for (let day = 1; day <= daysCount; day++)` loop, run for
the first `n` days. -/
def engineLoop (year month daysCount : ℤ) (availableMoney : ℚ)
    (spentOf : String → ℚ) (today : ℤ) (n : ℕ) : ℚ × ℤ × List DayAllowance :=
  (List.range' 1 n).foldl
    (dayStep year month daysCount availableMoney spentOf today) (0, daysCount, [])

/-- The `spendingData` computation: month length, permissive parsing of the
amounts, the day loop, and the returned record.  `today` is the reference
current date (midnight day number); raw spent values are strings keyed by
`formatDateKey` dates. -/
def computeAllowances (year month : ℤ) (totalStr savingStr : String)
    (spentByDate : String → Option String) (today : ℤ) : SpendingData :=
  let daysCount : ℤ := getDaysInMonth year month
  let totalAmount := parseOrZero totalStr
  let desiredSaving := parseOrZero savingStr
  let availableMoney := totalAmount - desiredSaving
  let spentOf := spentLookup spentByDate
  let res := engineLoop year month daysCount availableMoney spentOf today daysCount.toNat
  { days := res.2.2
    totalAmount
    desiredSaving
    availableMoney
    baseDailyAllowance := availableMoney / (daysCount : ℚ)
    rollover := res.1 }

/-- Whether day `d` (1-based) of the target month is classified as past. -/
def pastD (year month today : ℤ) (d : ℕ) : Bool :=
  decide (makeDay year month (d : ℤ) < today)

/-- Rollover accumulated over the past days among days `1..n`: the sum of
`baseDailyAllowance - spent` over exactly the past days, in calendar
order. -/
def pastSum (year month daysCount today : ℤ) (avail : ℚ)
    (spentOf : String → ℚ) (n : ℕ) : ℚ :=
  (((List.range' 1 n).filter (pastD year month today)).map
    (fun (d : ℕ) => avail / (daysCount : ℚ) - spentOf (formatDateKey year month (d : ℤ)))).sum

/-- Number of past days among days `1..n`. -/
def pastCount (year month today : ℤ) (n : ℕ) : ℕ :=
  ((List.range' 1 n).filter (pastD year month today)).length

/-- Closed form of the entry the loop pushes for day `d`. -/
def dayEntry (year month daysCount today : ℤ) (avail : ℚ)
    (spentOf : String → ℚ) (d : ℕ) : DayAllowance :=
  { date := makeDay year month (d : ℤ)
    dateKey := formatDateKey year month (d : ℤ)
    allowedSpending :=
      if makeDay year month (d : ℤ) < today then avail / (daysCount : ℚ)
      else (avail / (daysCount : ℚ) * ((daysCount : ℚ) - (d : ℚ) + 1) +
          pastSum year month daysCount today avail spentOf d) /
        ((daysCount : ℚ) - (d : ℚ) + 1)
    spent := spentOf (formatDateKey year month (d : ℤ))
    isPast := pastD year month today d
    isToday := decide (makeDay year month (d : ℤ) = today) }


theorem pastSum_succ (year month daysCount today : ℤ) (avail : ℚ)
    (spentOf : String → ℚ) (n : ℕ) :
    pastSum year month daysCount today avail spentOf (n + 1) =
      (if makeDay year month ((n : ℤ) + 1) < today then
        pastSum year month daysCount today avail spentOf n +
          (avail / (daysCount : ℚ) - spentOf (formatDateKey year month ((n : ℤ) + 1)))
      else pastSum year month daysCount today avail spentOf n) := by
  unfold pastSum
  rw [List.range'_concat, List.filter_append]
  rw [show 1 + 1 * n = n + 1 by omega]
  by_cases h : makeDay year month ((n : ℤ) + 1) < today
  · simp [pastD, h]
  · simp [pastD, h]

theorem pastCount_succ (year month today : ℤ) (n : ℕ) :
    pastCount year month today (n + 1) =
      (if makeDay year month ((n : ℤ) + 1) < today then
        pastCount year month today n + 1
      else pastCount year month today n) := by
  unfold pastCount
  rw [List.range'_concat, List.filter_append]
  rw [show 1 + 1 * n = n + 1 by omega]
  by_cases h : makeDay year month ((n : ℤ) + 1) < today
  · simp [pastD, h]
  · simp [pastD, h]

/-- Closed form of the whole day loop: final rollover is the past-day sum,
`remainingDays` is the day count minus the number of past days, and the
`days` array is `dayEntry` at each of `1..n`. -/
theorem engineLoop_eq (year month daysCount today : ℤ) (avail : ℚ)
    (spentOf : String → ℚ) (n : ℕ) :
    engineLoop year month daysCount avail spentOf today n =
      (pastSum year month daysCount today avail spentOf n,
       daysCount - (pastCount year month today n : ℤ),
       (List.range' 1 n).map (dayEntry year month daysCount today avail spentOf)) := by
  induction n with
  | zero => simp [engineLoop, pastSum, pastCount]
  | succ k ih =>
    unfold engineLoop at ih ⊢
    rw [List.range'_concat, List.foldl_append, ih]
    rw [show 1 + 1 * k = k + 1 by omega]
    rw [pastSum_succ, pastCount_succ]
    by_cases h : makeDay year month ((k : ℤ) + 1) < today
    · simp only [List.foldl_cons, List.foldl_nil, dayStep, dayEntry, pastD,
        List.map_append, List.map_cons, List.map_nil]
      simp [h]
      constructor
      · ring
      · omega
    · simp only [List.foldl_cons, List.foldl_nil, dayStep, dayEntry, pastD,
        List.map_append, List.map_cons, List.map_nil]
      simp [h]
      rw [pastSum_succ, if_neg h]

/-- Closed form of `computeAllowances` in terms of `dayEntry` and
`pastSum`. -/
theorem computeAllowances_eq (year month : ℤ) (t s : String)
    (f : String → Option String) (today : ℤ) :
    computeAllowances year month t s f today =
      { days := (List.range' 1 (getDaysInMonth year month).toNat).map
          (dayEntry year month (getDaysInMonth year month) today
            (parseOrZero t - parseOrZero s) (spentLookup f))
        totalAmount := parseOrZero t
        desiredSaving := parseOrZero s
        availableMoney := parseOrZero t - parseOrZero s
        baseDailyAllowance := (parseOrZero t - parseOrZero s) / ((getDaysInMonth year month : ℤ) : ℚ)
        rollover := pastSum year month (getDaysInMonth year month) today
          (parseOrZero t - parseOrZero s) (spentLookup f) (getDaysInMonth year month).toNat } := by
  simp only [computeAllowances, engineLoop_eq]

/-- The day number of `new Date(year, month, day)` is linear in the day
component. -/
theorem makeDay_day_shift (year month d : ℤ) :
    makeDay year month d = makeDay year month 0 + d := by
  simp only [makeDay, ecmaMakeDay]
  ring

/-- Once some day of the month is not past, no later day of the month is
past, so the rollover accumulated so far is already the full past-day
rollover. -/
theorem pastSum_stable (year month daysCount today : ℤ) (avail : ℚ)
    (spentOf : String → ℚ) (d n : ℕ) (hdn : d ≤ n)
    (hd : ¬ makeDay year month (d : ℤ) < today) :
    pastSum year month daysCount today avail spentOf n =
      pastSum year month daysCount today avail spentOf d := by
  unfold pastSum
  rw [show n = (n - d) + d by omega, ← List.range'_append 1 d (n - d) 1]
  rw [List.filter_append, List.map_append, List.sum_append]
  have hnil : List.filter (pastD year month today) (List.range' (1 + 1 * d) (n - d)) = [] := by
    rw [List.filter_eq_nil_iff]
    intro a ha
    rw [List.mem_range'_1] at ha
    simp only [pastD, decide_eq_true_eq]
    rw [makeDay_day_shift]
    rw [makeDay_day_shift] at hd
    have : (d : ℤ) + 1 ≤ (a : ℤ) := by omega
    omega
  rw [hnil]
  simp

/-- The same fact for the past-day count: days at or after a non-past day
contribute nothing. -/
theorem pastCount_stable (year month today : ℤ) (d n : ℕ) (hdn : d ≤ n)
    (hd : ¬ makeDay year month (d : ℤ) < today) :
    pastCount year month today n = pastCount year month today d := by
  unfold pastCount
  rw [show n = (n - d) + d by omega, ← List.range'_append 1 d (n - d) 1]
  rw [List.filter_append]
  have hnil : List.filter (pastD year month today) (List.range' (1 + 1 * d) (n - d)) = [] := by
    rw [List.filter_eq_nil_iff]
    intro a ha
    rw [List.mem_range'_1] at ha
    simp only [pastD, decide_eq_true_eq]
    rw [makeDay_day_shift]
    rw [makeDay_day_shift] at hd
    have : (d : ℤ) + 1 ≤ (a : ℤ) := by omega
    omega
  rw [hnil]
  simp

/-- Any entry of the returned `days` array is `dayEntry` at its 1-based
day number. -/
theorem days_getElem (year month : ℤ) (t s : String) (f : String → Option String)
    (today : ℤ) (i : ℕ) (da : DayAllowance)
    (hda : (computeAllowances year month t s f today).days[i]? = some da) :
    i < (getDaysInMonth year month).toNat ∧
      da = dayEntry year month (getDaysInMonth year month) today
        (parseOrZero t - parseOrZero s) (spentLookup f) (1 + i) := by
  rw [computeAllowances_eq] at hda
  simp only [List.getElem?_map] at hda
  have hi : i < (getDaysInMonth year month).toNat := by
    by_contra hi
    push_neg at hi
    rw [List.getElem?_eq_none (by simpa using hi)] at hda
    simp at hda
  rw [List.getElem?_range' _ _ hi] at hda
  simp only [one_mul, Option.map_some] at hda
  exact ⟨hi, (Option.some.injEq _ _ ▸ hda).symm⟩

/-- C3: every day classified as past is reported with `allowedSpending`
equal to `baseDailyAllowance` (`availableMoney / daysCount`), unaffected by
any rollover. -/
theorem past_day_allowance_is_base (year month : ℤ) (t s : String)
    (f : String → Option String) (today : ℤ) (i : ℕ) (da : DayAllowance)
    (hda : (computeAllowances year month t s f today).days[i]? = some da)
    (hp : da.isPast = true) :
    da.allowedSpending = (computeAllowances year month t s f today).baseDailyAllowance := by
  obtain ⟨hi, rfl⟩ := days_getElem year month t s f today i da hda
  simp only [dayEntry, pastD, decide_eq_true_eq] at hp
  rw [computeAllowances_eq]
  simp only [dayEntry, if_pos hp]

/-- Witness for C3: September 2025, `today` = September 2; day 1 is past
and its reported allowance is the base allowance `3000 / 30 = 100`. -/
theorem past_day_allowance_is_base_witness :
    ((computeAllowances 2025 8 "3000" "0"
        (fun k => if k = "2025-09-01" then some "50" else none)
        (makeDay 2025 8 2)).days[0]? =
      some ({ date := makeDay 2025 8 1, dateKey := "2025-09-01",
              allowedSpending := 100, spent := 50, isPast := true,
              isToday := false } : DayAllowance)) ∧
    (100 : ℚ) =
      (computeAllowances 2025 8 "3000" "0"
        (fun k => if k = "2025-09-01" then some "50" else none)
        (makeDay 2025 8 2)).baseDailyAllowance := by
  refine ⟨by with_unfolding_all rfl, ?_⟩
  exact past_day_allowance_is_base 2025 8 "3000" "0"
    (fun k => if k = "2025-09-01" then some "50" else none)
    (makeDay 2025 8 2) 0
    ({ date := makeDay 2025 8 1, dateKey := "2025-09-01",
       allowedSpending := 100, spent := 50, isPast := true,
       isToday := false } : DayAllowance)
    (by with_unfolding_all rfl) rfl

/-- C1: every day classified today-or-future (day number `i + 1`, 0-based
index `i`) is reported with allowance
`(baseDailyAllowance * daysRemaining + rollover) / daysRemaining`, where
`daysRemaining = daysCount - dayNumber + 1 = daysCount - i` and the
rollover is the final one accumulated from all past days. -/
theorem allowance_today_future (year month : ℤ) (t s : String)
    (f : String → Option String) (today : ℤ) (i : ℕ) (da : DayAllowance)
    (hda : (computeAllowances year month t s f today).days[i]? = some da)
    (hnp : da.isPast = false) :
    da.allowedSpending =
      ((computeAllowances year month t s f today).baseDailyAllowance *
          (((getDaysInMonth year month : ℤ) : ℚ) - (i : ℚ)) +
        (computeAllowances year month t s f today).rollover) /
      (((getDaysInMonth year month : ℤ) : ℚ) - (i : ℚ)) := by
  obtain ⟨hi, rfl⟩ := days_getElem year month t s f today i da hda
  simp only [dayEntry, pastD, decide_eq_false_iff_not] at hnp
  rw [computeAllowances_eq]
  simp only [dayEntry, if_neg hnp]
  rw [pastSum_stable year month (getDaysInMonth year month) today
    (parseOrZero t - parseOrZero s) (spentLookup f) (1 + i)
    (getDaysInMonth year month).toNat (by omega) hnp]
  push_cast
  ring_nf

/-- Witness for C1, the spec's scenario: 30-day September 2025, total 3000,
saving 0, 50 spent on day 1, `today` = day 2.  Day 2 is not past and its
allowance is `(100 * 29 + 50) / 29`. -/
theorem allowance_today_future_witness :
    ((computeAllowances 2025 8 "3000" "0"
        (fun k => if k = "2025-09-01" then some "50" else none)
        (makeDay 2025 8 2)).days[1]? =
      some ({ date := makeDay 2025 8 2, dateKey := "2025-09-02",
              allowedSpending := 2950 / 29, spent := 0, isPast := false,
              isToday := true } : DayAllowance)) ∧
    (2950 / 29 : ℚ) = ((100 : ℚ) * 29 + 50) / 29 ∧
    ({ date := makeDay 2025 8 2, dateKey := "2025-09-02",
       allowedSpending := 2950 / 29, spent := 0, isPast := false,
       isToday := true } : DayAllowance).allowedSpending =
      ((computeAllowances 2025 8 "3000" "0"
          (fun k => if k = "2025-09-01" then some "50" else none)
          (makeDay 2025 8 2)).baseDailyAllowance *
          (((getDaysInMonth 2025 8 : ℤ) : ℚ) - (1 : ℚ)) +
        (computeAllowances 2025 8 "3000" "0"
          (fun k => if k = "2025-09-01" then some "50" else none)
          (makeDay 2025 8 2)).rollover) /
      (((getDaysInMonth 2025 8 : ℤ) : ℚ) - (1 : ℚ)) := by
  refine ⟨by with_unfolding_all rfl, by norm_num, ?_⟩
  exact allowance_today_future 2025 8 "3000" "0"
    (fun k => if k = "2025-09-01" then some "50" else none)
    (makeDay 2025 8 2) 1
    ({ date := makeDay 2025 8 2, dateKey := "2025-09-02",
       allowedSpending := 2950 / 29, spent := 0, isPast := false,
       isToday := true } : DayAllowance)
    (by with_unfolding_all rfl) rfl

/-- C2: the returned `rollover` is the sum, over exactly the days whose
date is before `today`, of `baseDailyAllowance - spent`, in ascending
calendar order (the `days` array is in calendar order); and with no
spending recorded it is the number of past days times
`baseDailyAllowance`. -/
theorem rollover_is_past_sum (year month : ℤ) (t s : String)
    (f : String → Option String) (today : ℤ) :
    (computeAllowances year month t s f today).rollover =
      (((computeAllowances year month t s f today).days.filter
          (fun da => da.isPast)).map
        (fun da => (computeAllowances year month t s f today).baseDailyAllowance - da.spent)).sum
    ∧ ((∀ k, f k = none) →
      (computeAllowances year month t s f today).rollover =
        ((((computeAllowances year month t s f today).days.filter
            (fun da => da.isPast)).length : ℚ) *
          (computeAllowances year month t s f today).baseDailyAllowance)) := by
  have hfil :
      (computeAllowances year month t s f today).days.filter (fun da => da.isPast) =
        ((List.range' 1 (getDaysInMonth year month).toNat).filter
          (pastD year month today)).map
          (dayEntry year month (getDaysInMonth year month) today
            (parseOrZero t - parseOrZero s) (spentLookup f)) := by
    rw [computeAllowances_eq]
    rw [List.filter_map]
    rfl
  constructor
  · rw [computeAllowances_eq]
    simp only [computeAllowances_eq] at hfil
    rw [hfil, List.map_map]
    rfl
  · intro hf
    rw [computeAllowances_eq]
    simp only [computeAllowances_eq] at hfil
    rw [hfil, List.length_map]
    have hsp : ∀ (d : ℕ), spentLookup f (formatDateKey year month (d : ℤ)) = 0 := by
      intro d
      simp [spentLookup, hf]
    simp only [pastSum]
    have hmap :
        (fun (d : ℕ) => (parseOrZero t - parseOrZero s) / ((getDaysInMonth year month : ℤ) : ℚ) -
          spentLookup f (formatDateKey year month (d : ℤ))) =
        (fun (_ : ℕ) => (parseOrZero t - parseOrZero s) / ((getDaysInMonth year month : ℤ) : ℚ)) := by
      funext d
      rw [hsp, sub_zero]
    rw [hmap, List.map_const', List.sum_replicate, nsmul_eq_mul]

/-- Witness for C2: September 2025 with no spending recorded and `today` =
September 11; the ten past days give `rollover = 10 * 100 = 1000`. -/
theorem rollover_is_past_sum_witness :
    (computeAllowances 2025 8 "3000" "0" (fun _ => none) (makeDay 2025 8 11)).rollover =
      ((((computeAllowances 2025 8 "3000" "0" (fun _ => none)
            (makeDay 2025 8 11)).days.filter
          (fun da => da.isPast)).length : ℚ) *
        (computeAllowances 2025 8 "3000" "0" (fun _ => none)
          (makeDay 2025 8 11)).baseDailyAllowance) ∧
    (computeAllowances 2025 8 "3000" "0" (fun _ => none) (makeDay 2025 8 11)).rollover =
      1000 := by
  refine ⟨(rollover_is_past_sum 2025 8 "3000" "0" (fun _ => none)
    (makeDay 2025 8 11)).2 (fun k => rfl), ?_⟩
  with_unfolding_all rfl

/-- C4: `availableMoney` is the unclamped difference
`totalAmount - desiredSaving` (negative when saving exceeds total), and
when the rollover is not positive and the base daily allowance is
negative, every today-or-future day's allowance is negative. -/
theorem available_money_no_clamp (year month : ℤ) (t s : String)
    (f : String → Option String) (today : ℤ) :
    (computeAllowances year month t s f today).availableMoney =
      parseOrZero t - parseOrZero s
    ∧ ((computeAllowances year month t s f today).rollover ≤ 0 →
      (computeAllowances year month t s f today).baseDailyAllowance < 0 →
      ∀ (i : ℕ) (da : DayAllowance),
        (computeAllowances year month t s f today).days[i]? = some da →
        da.isPast = false → da.allowedSpending < 0) := by
  constructor
  · rw [computeAllowances_eq]
  · intro hr hb i da hda hnp
    obtain ⟨hi, rfl⟩ := days_getElem year month t s f today i da hda
    simp only [dayEntry, pastD, decide_eq_false_iff_not] at hnp
    simp only [dayEntry, if_neg hnp]
    rw [computeAllowances_eq] at hr hb
    simp only at hr hb
    rw [pastSum_stable year month (getDaysInMonth year month) today
      (parseOrZero t - parseOrZero s) (spentLookup f) (1 + i)
      (getDaysInMonth year month).toNat (by omega) hnp] at hr
    have hR : (0 : ℚ) < ((getDaysInMonth year month : ℤ) : ℚ) - ((1 + i : ℕ) : ℚ) + 1 := by
      have h1 : (i : ℤ) < getDaysInMonth year month := by omega
      have h2 : (((i : ℕ) : ℤ) : ℚ) < ((getDaysInMonth year month : ℤ) : ℚ) :=
        Int.cast_lt.mpr h1
      push_cast at h2 ⊢
      linarith
    exact div_neg_of_neg_of_pos
      (add_neg_of_neg_of_nonpos (mul_neg_of_neg_of_pos hb hR) hr) hR

/-- Witness for C4, the spec's scenario: total 1000, saving 1200 gives
`availableMoney = -200`, a negative base allowance, and (with `today` at
the first of the month, so zero rollover) a negative allowance on day 1. -/
theorem available_money_no_clamp_witness :
    (computeAllowances 2025 8 "1000" "1200" (fun _ => none)
        (makeDay 2025 8 1)).availableMoney = -200 ∧
    (computeAllowances 2025 8 "1000" "1200" (fun _ => none)
        (makeDay 2025 8 1)).baseDailyAllowance < 0 ∧
    ({ date := makeDay 2025 8 1, dateKey := "2025-09-01",
       allowedSpending := -20 / 3, spent := 0, isPast := false,
       isToday := true } : DayAllowance).allowedSpending < 0 := by
  refine ⟨by with_unfolding_all rfl, by with_unfolding_all decide, ?_⟩
  exact (available_money_no_clamp 2025 8 "1000" "1200" (fun _ => none)
      (makeDay 2025 8 1)).2
    (by with_unfolding_all decide)
    (by with_unfolding_all decide)
    0
    ({ date := makeDay 2025 8 1, dateKey := "2025-09-01",
       allowedSpending := -20 / 3, spent := 0, isPast := false,
       isToday := true } : DayAllowance)
    (by with_unfolding_all rfl) rfl

/-- C10: when `today` is on or before the first of the target month, no
day is past, the rollover is `0`, and every day's allowance equals the
base daily allowance, whatever `spentByDate` contains. -/
theorem month_start_no_redistribution (year month : ℤ) (t s : String)
    (f : String → Option String) (today : ℤ)
    (h : today ≤ makeDay year month 1) :
    (computeAllowances year month t s f today).rollover = 0 ∧
    ∀ (i : ℕ) (da : DayAllowance),
      (computeAllowances year month t s f today).days[i]? = some da →
      da.allowedSpending = (computeAllowances year month t s f today).baseDailyAllowance := by
  have hnp : ∀ d : ℕ, 1 ≤ d → ¬ makeDay year month (d : ℤ) < today := by
    intro d hd
    rw [makeDay_day_shift]
    rw [makeDay_day_shift] at h
    have : 1 ≤ (d : ℤ) := by exact_mod_cast hd
    omega
  have hfil : ∀ m : ℕ,
      List.filter (pastD year month today) (List.range' 1 m) = [] := by
    intro m
    rw [List.filter_eq_nil_iff]
    intro a ha
    rw [List.mem_range'_1] at ha
    simp only [pastD, decide_eq_true_eq]
    exact hnp a ha.1
  constructor
  · rw [computeAllowances_eq]
    simp only [pastSum, hfil, List.map_nil, List.sum_nil]
  · intro i da hda
    obtain ⟨hi, rfl⟩ := days_getElem year month t s f today i da hda
    rw [computeAllowances_eq]
    simp only [dayEntry, if_neg (hnp (1 + i) (by omega)), pastSum, hfil,
      List.map_nil, List.sum_nil, add_zero]
    have hR : ((getDaysInMonth year month : ℤ) : ℚ) - ((1 + i : ℕ) : ℚ) + 1 ≠ 0 := by
      have h1 : (i : ℤ) < getDaysInMonth year month := by omega
      have h2 : (((i : ℕ) : ℤ) : ℚ) < ((getDaysInMonth year month : ℤ) : ℚ) :=
        Int.cast_lt.mpr h1
      push_cast at h2 ⊢
      intro hc
      rw [sub_add, sub_eq_zero] at hc
      rw [hc] at h2
      linarith
    rw [mul_div_cancel_right₀ _ hR]

/-- Witness for C10: `today` = September 1 2025, spending recorded on every
date; the rollover is still `0` and day 1's allowance is the base `100`. -/
theorem month_start_no_redistribution_witness :
    (computeAllowances 2025 8 "3000" "0" (fun _ => some "999")
        (makeDay 2025 8 1)).rollover = 0 ∧
    ({ date := makeDay 2025 8 1, dateKey := "2025-09-01",
       allowedSpending := 100, spent := 999, isPast := false,
       isToday := true } : DayAllowance).allowedSpending =
      (computeAllowances 2025 8 "3000" "0" (fun _ => some "999")
        (makeDay 2025 8 1)).baseDailyAllowance := by
  refine ⟨(month_start_no_redistribution 2025 8 "3000" "0" (fun _ => some "999")
    (makeDay 2025 8 1) le_rfl).1, ?_⟩
  exact (month_start_no_redistribution 2025 8 "3000" "0" (fun _ => some "999")
    (makeDay 2025 8 1) le_rfl).2 0
    ({ date := makeDay 2025 8 1, dateKey := "2025-09-01",
       allowedSpending := 100, spent := 999, isPast := false,
       isToday := true } : DayAllowance)
    (by with_unfolding_all rfl)

/-- C7: the engine is total and permissive — strings that do not parse as
numbers (including empty text) are treated as `0`, so a run whose
`totalAmount`, `desiredSaving`, and every recorded spent value are all
unparseable behaves exactly like the all-zero run (and returns a result
rather than failing). -/
theorem unparseable_treated_as_zero (year month today : ℤ) (t s : String)
    (f : String → Option String)
    (ht : jsParseFloat t = none) (hs : jsParseFloat s = none)
    (hf : ∀ k v, f k = some v → jsParseFloat v = none) :
    parseOrZero t = 0 ∧ parseOrZero s = 0 ∧
    computeAllowances year month t s f today =
      computeAllowances year month "" "" (fun _ => none) today := by
  have h1 : parseOrZero t = 0 := by simp [parseOrZero, ht]
  have h2 : parseOrZero s = 0 := by simp [parseOrZero, hs]
  have h3 : parseOrZero "" = 0 := by with_unfolding_all rfl
  have hsp : spentLookup f = spentLookup (fun _ => none) := by
    funext k
    simp only [spentLookup]
    cases hk : f k with
    | none => rfl
    | some v => simp [parseOrZero, hf k v hk]
  refine ⟨h1, h2, ?_⟩
  rw [computeAllowances_eq, computeAllowances_eq, h1, h2, h3, hsp]

/-- Witness for C7: `totalAmount = "abc"`, empty saving, and an
unparseable spent value on every date behave exactly like the all-zero
run. -/
theorem unparseable_treated_as_zero_witness :
    parseOrZero "abc" = 0 ∧ parseOrZero "" = 0 ∧
    computeAllowances 2025 8 "abc" "" (fun _ => some "x-") (makeDay 2025 8 5) =
      computeAllowances 2025 8 "" "" (fun _ => none) (makeDay 2025 8 5) :=
  unparseable_treated_as_zero 2025 8 (makeDay 2025 8 5) "abc" ""
    (fun _ => some "x-") (by with_unfolding_all rfl) (by with_unfolding_all rfl)
    (fun k v hv => by
      rw [show v = "x-" from (Option.some.injEq _ _ ▸ hv).symm]
      with_unfolding_all rfl)

/-- C8: the engine is a pure function of
`(year, month, totalAmount, desiredSaving, spentByDate, today)` — two
invocations with identical inputs produce identical outputs. -/
theorem engine_deterministic (year1 month1 today1 year2 month2 today2 : ℤ)
    (t1 s1 t2 s2 : String) (f1 f2 : String → Option String)
    (hy : year1 = year2) (hm : month1 = month2) (ht : t1 = t2) (hs : s1 = s2)
    (hf : f1 = f2) (hd : today1 = today2) :
    computeAllowances year1 month1 t1 s1 f1 today1 =
      computeAllowances year2 month2 t2 s2 f2 today2 := by
  subst hy
  subst hm
  subst ht
  subst hs
  subst hf
  subst hd
  rfl

/-- Witness for C8 at concrete identical inputs. -/
theorem engine_deterministic_witness :
    computeAllowances 2025 8 "3000" "0" (fun _ => none) (makeDay 2025 8 2) =
      computeAllowances 2025 8 "3000" "0" (fun _ => none) (makeDay 2025 8 2) :=
  engine_deterministic 2025 8 (makeDay 2025 8 2) 2025 8 (makeDay 2025 8 2)
    "3000" "0" "3000" "0" (fun _ => none) (fun _ => none)
    rfl rfl rfl rfl rfl rfl

/-- Floored division by the positive literals used in the calendar model
agrees with Euclidean division. -/
theorem fdiv_eq_ediv_of_pos (a b : ℤ) (hb : 0 ≤ b) : a.fdiv b = a / b :=
  Int.fdiv_eq_ediv a hb

theorem dayFromYear_add_400 (y : ℤ) :
    dayFromYear (y + 400) = dayFromYear y + 146097 := by
  unfold dayFromYear
  rw [fdiv_eq_ediv_of_pos _ 4 (by norm_num), fdiv_eq_ediv_of_pos _ 4 (by norm_num),
    fdiv_eq_ediv_of_pos _ 100 (by norm_num), fdiv_eq_ediv_of_pos _ 100 (by norm_num),
    fdiv_eq_ediv_of_pos _ 400 (by norm_num), fdiv_eq_ediv_of_pos _ 400 (by norm_num)]
  omega

theorem isLeapYear_add_400 (y : ℤ) : isLeapYear (y + 400) = isLeapYear y := by
  unfold isLeapYear
  have h4 : (y + 400) % 4 = y % 4 := by omega
  have h100 : (y + 400) % 100 = y % 100 := by omega
  have h400 : (y + 400) % 400 = y % 400 := by omega
  rw [h4, h100, h400]

theorem ecmaMakeDay_add_400 (y m d : ℤ) :
    ecmaMakeDay (y + 400) m d = ecmaMakeDay y m d + 146097 := by
  simp only [ecmaMakeDay]
  rw [show y + 400 + m.fdiv 12 = y + m.fdiv 12 + 400 from by ring]
  rw [dayFromYear_add_400, isLeapYear_add_400]
  ring

theorem yearFromDay_add_cycle (d : ℤ) :
    yearFromDay (d + 146097) = yearFromDay d + 400 := by
  simp only [yearFromDay]
  rw [show d + 146097 - dayFromYear 1600 = d - dayFromYear 1600 + 146097 from by ring]
  generalize d - dayFromYear 1600 = c
  have hera : (c + 146097).fdiv 146097 = c.fdiv 146097 + 1 := by
    rw [fdiv_eq_ediv_of_pos _ 146097 (by norm_num),
      fdiv_eq_ediv_of_pos _ 146097 (by norm_num)]
    omega
  rw [hera]
  rw [show c + 146097 - (c.fdiv 146097 + 1) * 146097 =
    c - c.fdiv 146097 * 146097 from by ring]
  ring

theorem getDate_add_cycle (d : ℤ) : getDate (d + 146097) = getDate d := by
  simp only [getDate]
  rw [yearFromDay_add_cycle, dayFromYear_add_400, isLeapYear_add_400]
  congr 1
  ring

theorem ecmaDaysInMonth_add_400 (y m : ℤ) :
    ecmaDaysInMonth (y + 400) m = ecmaDaysInMonth y m := by
  simp only [ecmaDaysInMonth]
  rw [ecmaMakeDay_add_400, getDate_add_cycle]

theorem gregDaysInMonth_add_400 (y m : ℤ) :
    gregDaysInMonth (y + 400) m = gregDaysInMonth y m := by
  simp only [gregDaysInMonth, isLeapYear_add_400]

theorem ecmaDaysInMonth_add_mul_400 (y m k : ℤ) :
    ecmaDaysInMonth (y + 400 * k) m = ecmaDaysInMonth y m := by
  induction k using Int.induction_on with
  | hz => simp
  | hp n ih =>
    rw [show y + 400 * ((n : ℤ) + 1) = y + 400 * (n : ℤ) + 400 from by ring,
      ecmaDaysInMonth_add_400, ih]
  | hn n ih =>
    have h := ecmaDaysInMonth_add_400 (y + 400 * (-(n : ℤ) - 1)) m
    rw [show y + 400 * (-(n : ℤ) - 1) + 400 = y + 400 * (-(n : ℤ)) from by ring] at h
    rw [← h, ih]

theorem gregDaysInMonth_add_mul_400 (y m k : ℤ) :
    gregDaysInMonth (y + 400 * k) m = gregDaysInMonth y m := by
  induction k using Int.induction_on with
  | hz => simp
  | hp n ih =>
    rw [show y + 400 * ((n : ℤ) + 1) = y + 400 * (n : ℤ) + 400 from by ring,
      gregDaysInMonth_add_400, ih]
  | hn n ih =>
    have h := gregDaysInMonth_add_400 (y + 400 * (-(n : ℤ) - 1)) m
    rw [show y + 400 * (-(n : ℤ) - 1) + 400 = y + 400 * (-(n : ℤ)) from by ring] at h
    rw [← h, ih]

set_option maxHeartbeats 1000000 in
theorem daysInMonth_chunk0 : ∀ r : ℕ, r < 40 → ∀ mm : ℕ, mm < 12 →
    ecmaDaysInMonth (1600 + (r : ℤ)) (mm : ℤ) =
      gregDaysInMonth (1600 + (r : ℤ)) (mm : ℤ) := by decide

set_option maxHeartbeats 1000000 in
theorem daysInMonth_chunk1 : ∀ r : ℕ, r < 40 → ∀ mm : ℕ, mm < 12 →
    ecmaDaysInMonth (1640 + (r : ℤ)) (mm : ℤ) =
      gregDaysInMonth (1640 + (r : ℤ)) (mm : ℤ) := by decide

set_option maxHeartbeats 1000000 in
theorem daysInMonth_chunk2 : ∀ r : ℕ, r < 40 → ∀ mm : ℕ, mm < 12 →
    ecmaDaysInMonth (1680 + (r : ℤ)) (mm : ℤ) =
      gregDaysInMonth (1680 + (r : ℤ)) (mm : ℤ) := by decide

set_option maxHeartbeats 1000000 in
theorem daysInMonth_chunk3 : ∀ r : ℕ, r < 40 → ∀ mm : ℕ, mm < 12 →
    ecmaDaysInMonth (1720 + (r : ℤ)) (mm : ℤ) =
      gregDaysInMonth (1720 + (r : ℤ)) (mm : ℤ) := by decide

set_option maxHeartbeats 1000000 in
theorem daysInMonth_chunk4 : ∀ r : ℕ, r < 40 → ∀ mm : ℕ, mm < 12 →
    ecmaDaysInMonth (1760 + (r : ℤ)) (mm : ℤ) =
      gregDaysInMonth (1760 + (r : ℤ)) (mm : ℤ) := by decide

set_option maxHeartbeats 1000000 in
theorem daysInMonth_chunk5 : ∀ r : ℕ, r < 40 → ∀ mm : ℕ, mm < 12 →
    ecmaDaysInMonth (1800 + (r : ℤ)) (mm : ℤ) =
      gregDaysInMonth (1800 + (r : ℤ)) (mm : ℤ) := by decide

set_option maxHeartbeats 1000000 in
theorem daysInMonth_chunk6 : ∀ r : ℕ, r < 40 → ∀ mm : ℕ, mm < 12 →
    ecmaDaysInMonth (1840 + (r : ℤ)) (mm : ℤ) =
      gregDaysInMonth (1840 + (r : ℤ)) (mm : ℤ) := by decide

set_option maxHeartbeats 1000000 in
theorem daysInMonth_chunk7 : ∀ r : ℕ, r < 40 → ∀ mm : ℕ, mm < 12 →
    ecmaDaysInMonth (1880 + (r : ℤ)) (mm : ℤ) =
      gregDaysInMonth (1880 + (r : ℤ)) (mm : ℤ) := by decide

set_option maxHeartbeats 1000000 in
theorem daysInMonth_chunk8 : ∀ r : ℕ, r < 40 → ∀ mm : ℕ, mm < 12 →
    ecmaDaysInMonth (1920 + (r : ℤ)) (mm : ℤ) =
      gregDaysInMonth (1920 + (r : ℤ)) (mm : ℤ) := by decide

set_option maxHeartbeats 1000000 in
theorem daysInMonth_chunk9 : ∀ r : ℕ, r < 40 → ∀ mm : ℕ, mm < 12 →
    ecmaDaysInMonth (1960 + (r : ℤ)) (mm : ℤ) =
      gregDaysInMonth (1960 + (r : ℤ)) (mm : ℤ) := by decide

/-- Exhaustive check of one full 400-year Gregorian cycle: the
day-before-the-first-of-next-month rule returns the reference month
lengths for every month of the years 1600-1999. -/
theorem daysInMonth_base_cycle : ∀ r : ℕ, r < 400 → ∀ mm : ℕ, mm < 12 →
    ecmaDaysInMonth (1600 + (r : ℤ)) (mm : ℤ) =
      gregDaysInMonth (1600 + (r : ℤ)) (mm : ℤ) := by
  intro r hr mm hmm
  rcases Nat.lt_or_ge r 40 with h | h0
  · exact daysInMonth_chunk0 r h mm hmm
  rcases Nat.lt_or_ge r 80 with h | h1
  · have heq : (1640 : ℤ) + ((r - 40 : ℕ) : ℤ) = 1600 + (r : ℤ) := by omega
    exact heq ▸ daysInMonth_chunk1 (r - 40) (by omega) mm hmm
  rcases Nat.lt_or_ge r 120 with h | h2
  · have heq : (1680 : ℤ) + ((r - 80 : ℕ) : ℤ) = 1600 + (r : ℤ) := by omega
    exact heq ▸ daysInMonth_chunk2 (r - 80) (by omega) mm hmm
  rcases Nat.lt_or_ge r 160 with h | h3
  · have heq : (1720 : ℤ) + ((r - 120 : ℕ) : ℤ) = 1600 + (r : ℤ) := by omega
    exact heq ▸ daysInMonth_chunk3 (r - 120) (by omega) mm hmm
  rcases Nat.lt_or_ge r 200 with h | h4
  · have heq : (1760 : ℤ) + ((r - 160 : ℕ) : ℤ) = 1600 + (r : ℤ) := by omega
    exact heq ▸ daysInMonth_chunk4 (r - 160) (by omega) mm hmm
  rcases Nat.lt_or_ge r 240 with h | h5
  · have heq : (1800 : ℤ) + ((r - 200 : ℕ) : ℤ) = 1600 + (r : ℤ) := by omega
    exact heq ▸ daysInMonth_chunk5 (r - 200) (by omega) mm hmm
  rcases Nat.lt_or_ge r 280 with h | h6
  · have heq : (1840 : ℤ) + ((r - 240 : ℕ) : ℤ) = 1600 + (r : ℤ) := by omega
    exact heq ▸ daysInMonth_chunk6 (r - 240) (by omega) mm hmm
  rcases Nat.lt_or_ge r 320 with h | h7
  · have heq : (1880 : ℤ) + ((r - 280 : ℕ) : ℤ) = 1600 + (r : ℤ) := by omega
    exact heq ▸ daysInMonth_chunk7 (r - 280) (by omega) mm hmm
  rcases Nat.lt_or_ge r 360 with h | h8
  · have heq : (1920 : ℤ) + ((r - 320 : ℕ) : ℤ) = 1600 + (r : ℤ) := by omega
    exact heq ▸ daysInMonth_chunk8 (r - 320) (by omega) mm hmm
  have heq : (1960 : ℤ) + ((r - 360 : ℕ) : ℤ) = 1600 + (r : ℤ) := by omega
  exact heq ▸ daysInMonth_chunk9 (r - 360) (by omega) mm hmm

/-- For a `MakeFullYear`-resolved year (any integer) and any month index
0–11, the day-before-the-first-of-next-month rule returns the reference
Gregorian month length: proved by 400-year periodicity of both sides plus
the exhaustive check of the 1600–1999 cycle. -/
theorem ecma_days_in_month_correct (year month : ℤ) (h0 : 0 ≤ month)
    (h12 : month < 12) :
    ecmaDaysInMonth year month = gregDaysInMonth year month := by
  have hy : year = 1600 + (year - 1600) % 400 + 400 * ((year - 1600) / 400) := by
    omega
  have hr0 : 0 ≤ (year - 1600) % 400 := Int.emod_nonneg _ (by norm_num)
  have hr400 : (year - 1600) % 400 < 400 := Int.emod_lt_of_pos _ (by norm_num)
  rw [hy, ecmaDaysInMonth_add_mul_400, gregDaysInMonth_add_mul_400]
  have hrn : (1600 : ℤ) + (year - 1600) % 400 =
      1600 + ((((year - 1600) % 400).toNat : ℕ) : ℤ) := by omega
  have hmn : month = ((month.toNat : ℕ) : ℤ) := by omega
  rw [hrn, hmn]
  exact daysInMonth_base_cycle ((year - 1600) % 400).toNat (by omega)
    month.toNat (by omega)

/-- Counterexample to C5 as stated: year 0 is a leap year of the proleptic
Gregorian calendar, so its February truly has 29 days, but the engine
computes 28 — the JS `Date` constructor remaps years 0–99 to 1900+year,
and February 1900 has 28 days. -/
theorem days_in_month_counterexample :
    getDaysInMonth 0 1 = 28 ∧ gregDaysInMonth 0 1 = 29 ∧
    getDaysInMonth 0 1 ≠ gregDaysInMonth 0 1 := by decide

/-- C5 (amended): for every year and every month index 0–11, the engine's
`daysCount` (computed by `new Date(year, month + 1, 0).getDate()`) equals
the true Gregorian month length of the constructor-resolved year — years
0–99 are remapped to 1900+year by the `Date` constructor, every other
year is taken as-is; in particular, for every year outside 0–99 the
original claim holds verbatim, leap years included. -/
theorem days_in_month_constructor_year (year month : ℤ) (h0 : 0 ≤ month)
    (h12 : month < 12) :
    getDaysInMonth year month = gregDaysInMonth (makeFullYear year) month ∧
    (year < 0 ∨ 99 < year →
      getDaysInMonth year month = gregDaysInMonth year month) := by
  have hbase : getDaysInMonth year month =
      ecmaDaysInMonth (makeFullYear year) month := rfl
  constructor
  · rw [hbase, ecma_days_in_month_correct _ _ h0 h12]
  · intro hy
    have hid : makeFullYear year = year := if_neg (by omega)
    rw [hbase, hid, ecma_days_in_month_correct _ _ h0 h12]

/-- Witness for C5 (amended): February of year 0 resolves to February
1900 with 28 days, and February 2024 (a year outside the remap window) is
the true leap February with 29 days. -/
theorem days_in_month_constructor_year_witness :
    getDaysInMonth 0 1 = gregDaysInMonth (makeFullYear 0) 1 ∧
    getDaysInMonth 0 1 = 28 ∧
    getDaysInMonth 2024 1 = gregDaysInMonth 2024 1 ∧
    getDaysInMonth 2024 1 = 29 :=
  ⟨(days_in_month_constructor_year 0 1 (by norm_num) (by norm_num)).1,
   by decide,
   (days_in_month_constructor_year 2024 1 (by norm_num) (by norm_num)).2
     (Or.inr (by norm_num)),
   by decide⟩

/-- One row of the `spending_plans` table (drizzle schema): serial id,
unique `(year, month)`, decimal-as-text amounts, timestamps. -/
structure PlanRow where
  id : ℕ
  year : ℤ
  month : ℤ
  totalAmount : String
  desiredSaving : String
  createdAt : ℤ
  updatedAt : ℤ
  deriving DecidableEq

/-- One row of the `daily_spending` table: serial id, plan reference,
unique `(planId, date)`, decimal-as-text spent, timestamps. -/
structure DailyRow where
  id : ℕ
  planId : ℕ
  date : String
  spent : String
  createdAt : ℤ
  updatedAt : ℤ
  deriving DecidableEq

/-- The relational store: both tables plus the next serial id of each.
`now` timestamps are passed explicitly to each operation. -/
structure Store where
  plans : List PlanRow
  daily : List DailyRow
  nextPlanId : ℕ
  nextDailyId : ℕ
  deriving DecidableEq

/-- The `(planId, date)` key predicate used by `upsertDailySpending`'s
lookup (`and(eq(dailySpending.planId, planId), eq(dailySpending.date,
date))`). -/
def dailyKeyMatch (planId : ℕ) (date : String) (r : DailyRow) : Bool :=
  r.planId == planId && r.date == date

/-- Server function `upsertDailySpending`: find an existing row for
`(planId, date)`; update its `spent` and `updatedAt` in place (matched by
primary key `id`) if present, otherwise insert a fresh row.  Returns the
affected row and the new store. -/
def upsertDailySpending (s : Store) (planId : ℕ) (date spent : String)
    (now : ℤ) : DailyRow × Store :=
  match s.daily.find? (dailyKeyMatch planId date) with
  | some existing =>
    let updated : DailyRow := { existing with spent := spent, updatedAt := now }
    (updated,
      { s with daily := s.daily.map (fun r => if r.id == existing.id then updated else r) })
  | none =>
    let created : DailyRow :=
      { id := s.nextDailyId, planId := planId, date := date, spent := spent,
        createdAt := now, updatedAt := now }
    (created, { s with daily := s.daily ++ [created], nextDailyId := s.nextDailyId + 1 })

/-- Server function `getOrCreatePlan`: find the plan for `(year, month)`;
create it with zero amounts only when absent. -/
def getOrCreatePlan (s : Store) (year month : ℤ) (now : ℤ) : PlanRow × Store :=
  match s.plans.find? (fun p => p.year == year && p.month == month) with
  | some p => (p, s)
  | none =>
    let created : PlanRow :=
      { id := s.nextPlanId, year := year, month := month, totalAmount := "0",
        desiredSaving := "0", createdAt := now, updatedAt := now }
    (created, { s with plans := s.plans ++ [created], nextPlanId := s.nextPlanId + 1 })

/-- Server function `updatePlanSettings`: set `totalAmount`,
`desiredSaving`, and `updatedAt` on the rows whose `id` equals `planId`
(the primary key, so at most one row). -/
def updatePlanSettings (s : Store) (planId : ℕ)
    (totalAmount desiredSaving : String) (now : ℤ) : Store :=
  { s with plans := s.plans.map (fun p =>
      if p.id == planId then
        { p with totalAmount := totalAmount, desiredSaving := desiredSaving, updatedAt := now }
      else p) }

/-- C9: `updatePlanSettings` touches only the matched plan's
`totalAmount`, `desiredSaving`, and `updatedAt`: daily rows, both id
counters, the number of plans, every plan's `id`, `year`, `month`, and
`createdAt`, and every non-matching plan are all unchanged. -/
theorem update_plan_settings_frame (s : Store) (planId : ℕ)
    (t sv : String) (now : ℤ) :
    (updatePlanSettings s planId t sv now).daily = s.daily ∧
    (updatePlanSettings s planId t sv now).nextPlanId = s.nextPlanId ∧
    (updatePlanSettings s planId t sv now).nextDailyId = s.nextDailyId ∧
    (updatePlanSettings s planId t sv now).plans.length = s.plans.length ∧
    ∀ (i : ℕ) (p q : PlanRow), s.plans[i]? = some p →
      (updatePlanSettings s planId t sv now).plans[i]? = some q →
      q.id = p.id ∧ q.year = p.year ∧ q.month = p.month ∧
      q.createdAt = p.createdAt ∧
      (p.id ≠ planId → q = p) ∧
      (p.id = planId → q.totalAmount = t ∧ q.desiredSaving = sv ∧
        q.updatedAt = now) := by
  refine ⟨rfl, rfl, rfl, by simp [updatePlanSettings], ?_⟩
  intro i p q hp hq
  simp only [updatePlanSettings, List.getElem?_map, hp, Option.map_some] at hq
  have hq' : q = if p.id == planId then
      { p with totalAmount := t, desiredSaving := sv, updatedAt := now }
    else p := (Option.some.injEq _ _ ▸ hq).symm
  by_cases hid : p.id = planId
  · subst hq'
    simp [hid]
  · subst hq'
    simp [hid]

/-- Witness for C9: a two-plan store where only the first plan matches;
the second plan and the daily table are untouched. -/
theorem update_plan_settings_frame_witness :
    (updatePlanSettings
      ⟨[⟨1, 2025, 8, "3000", "0", 5, 5⟩, ⟨2, 2025, 9, "400", "0", 6, 6⟩],
       [⟨1, 1, "2025-09-01", "50", 7, 7⟩], 3, 2⟩ 1 "2500" "100" 9).daily =
      [⟨1, 1, "2025-09-01", "50", 7, 7⟩] ∧
    (⟨1, 2025, 8, "2500", "100", 5, 9⟩ : PlanRow).year = 2025 ∧
    ((⟨2, 2025, 9, "400", "0", 6, 6⟩ : PlanRow).id ≠ 1 →
      (⟨2, 2025, 9, "400", "0", 6, 6⟩ : PlanRow) = ⟨2, 2025, 9, "400", "0", 6, 6⟩) := by
  refine ⟨(update_plan_settings_frame
    ⟨[⟨1, 2025, 8, "3000", "0", 5, 5⟩, ⟨2, 2025, 9, "400", "0", 6, 6⟩],
     [⟨1, 1, "2025-09-01", "50", 7, 7⟩], 3, 2⟩ 1 "2500" "100" 9).1, ?_, ?_⟩
  · exact ((update_plan_settings_frame
      ⟨[⟨1, 2025, 8, "3000", "0", 5, 5⟩, ⟨2, 2025, 9, "400", "0", 6, 6⟩],
       [⟨1, 1, "2025-09-01", "50", 7, 7⟩], 3, 2⟩ 1 "2500" "100" 9).2.2.2.2 0
      ⟨1, 2025, 8, "3000", "0", 5, 5⟩ ⟨1, 2025, 8, "2500", "100", 5, 9⟩
      (by decide) (by decide)).2.1.symm ▸ rfl
  · exact fun _ => ((update_plan_settings_frame
      ⟨[⟨1, 2025, 8, "3000", "0", 5, 5⟩, ⟨2, 2025, 9, "400", "0", 6, 6⟩],
       [⟨1, 1, "2025-09-01", "50", 7, 7⟩], 3, 2⟩ 1 "2500" "100" 9).2.2.2.2 1
      ⟨2, 2025, 9, "400", "0", 6, 6⟩ ⟨2, 2025, 9, "400", "0", 6, 6⟩
      (by decide) (by decide)).2.2.2.2.1 (by decide)

/-- The two unique constraints of `daily_spending` between two rows:
distinct primary keys and distinct `(planId, date)` keys. -/
def dailyRel (a b : DailyRow) : Prop :=
  a.id ≠ b.id ∧ ¬(a.planId = b.planId ∧ a.date = b.date)

/-- Schema invariant: the table satisfies both unique constraints. -/
def dailyUnique (s : Store) : Prop :=
  s.daily.Pairwise dailyRel

/-- Serial-column invariant: every row id is below the next serial
value. -/
def dailyFresh (s : Store) : Prop :=
  ∀ r ∈ s.daily, r.id < s.nextDailyId

theorem mem_id_eq_of_pairwise (e x : DailyRow) :
    ∀ (l : List DailyRow), l.Pairwise dailyRel → e ∈ l → x ∈ l →
      x.id = e.id → x = e := by
  intro l
  induction l with
  | nil => intro _ he; exact absurd he (List.not_mem_nil e)
  | cons a t ih =>
    intro hpw he hx hid
    rw [List.pairwise_cons] at hpw
    rcases List.mem_cons.mp hx with hxa | hxt <;>
      rcases List.mem_cons.mp he with hea | het
    · rw [hxa, hea]
    · subst hxa
      exact absurd hid (hpw.1 e het).1
    · subst hea
      exact absurd hid.symm (hpw.1 x hxt).1
    · exact ih hpw.2 het hxt hid

theorem update_map_eq (l : List DailyRow) (hpw : l.Pairwise dailyRel)
    (e upd : DailyRow) (he : e ∈ l) :
    l.map (fun r => if r.id == e.id then upd else r) =
      l.map (fun r => if r = e then upd else r) := by
  apply List.map_congr_left
  intro a ha
  by_cases h : a.id = e.id
  · have hae : a = e := mem_id_eq_of_pairwise e a l hpw he ha h
    simp [h, hae]
  · have hae : ¬ a = e := fun hh => h (by rw [hh])
    simp [h, hae]

theorem filter_update_of_unique (planId : ℕ) (date : String)
    (e upd : DailyRow)
    (hm : dailyKeyMatch planId date e = true)
    (hum : dailyKeyMatch planId date upd = true) :
    ∀ (l : List DailyRow), l.Pairwise dailyRel → e ∈ l →
      (l.map (fun r => if r = e then upd else r)).filter
        (dailyKeyMatch planId date) = [upd] := by
  intro l
  induction l with
  | nil => intro _ he; exact absurd he (List.not_mem_nil e)
  | cons a t ih =>
    intro hpw he
    rw [List.pairwise_cons] at hpw
    simp only [dailyKeyMatch, Bool.and_eq_true, beq_iff_eq] at hm
    rcases List.mem_cons.mp he with hea | het
    · subst hea
      have he0 : (if e = e then upd else e) = upd := if_pos rfl
      have htail : t.map (fun r => if r = e then upd else r) = t := by
        refine (List.map_congr_left ?_).trans (List.map_id t)
        intro r hr
        have hre : ¬ r = e := fun hh =>
          (hpw.1 r hr).1 (by rw [hh])
        simp [hre]
      have hnil : t.filter (dailyKeyMatch planId date) = [] := by
        rw [List.filter_eq_nil_iff]
        intro r hr hmr
        simp only [dailyKeyMatch, Bool.and_eq_true, beq_iff_eq] at hmr
        exact (hpw.1 r hr).2 ⟨hm.1.trans hmr.1.symm, hm.2.trans hmr.2.symm⟩
      simp only [List.map_cons, List.filter_cons, he0, htail, hnil, hum, if_true]
    · have hane : ¬ a = e := fun hh =>
        (hpw.1 e het).1 (by rw [hh])
      simp only [List.map_cons, if_neg hane, List.filter_cons]
      have hna : dailyKeyMatch planId date a = false := by
        rw [Bool.eq_false_iff]
        intro hma
        simp only [dailyKeyMatch, Bool.and_eq_true, beq_iff_eq] at hma
        exact (hpw.1 e het).2 ⟨hma.1.trans hm.1.symm, hma.2.trans hm.2.symm⟩
      rw [hna]
      simp only [Bool.false_eq_true, if_false]
      exact ih hpw.2 het

/-- After one upsert, the rows matching `(planId, date)` are exactly the
returned row. -/
theorem upsert_filter (s : Store) (planId : ℕ) (date v : String) (now : ℤ)
    (hu : dailyUnique s) :
    (upsertDailySpending s planId date v now).2.daily.filter
      (dailyKeyMatch planId date) = [(upsertDailySpending s planId date v now).1] := by
  cases hfind : s.daily.find? (dailyKeyMatch planId date) with
  | some e =>
    have he := List.mem_of_find?_eq_some hfind
    have hm := List.find?_some hfind
    have hum : dailyKeyMatch planId date
        ({ e with spent := v, updatedAt := now } : DailyRow) = true := by
      simp only [dailyKeyMatch, Bool.and_eq_true, beq_iff_eq] at hm ⊢
      exact hm
    simp only [upsertDailySpending, hfind]
    rw [update_map_eq s.daily hu e _ he]
    exact filter_update_of_unique planId date e _ hm hum s.daily hu he
  | none =>
    simp only [upsertDailySpending, hfind]
    rw [List.filter_append]
    rw [List.find?_eq_none] at hfind
    have h1 : s.daily.filter (dailyKeyMatch planId date) = [] :=
      List.filter_eq_nil_iff.mpr hfind
    rw [h1]
    simp [dailyKeyMatch]

/-- The row returned by an upsert carries the written `spent` value. -/
theorem upsert_spent (s : Store) (planId : ℕ) (date v : String) (now : ℤ) :
    (upsertDailySpending s planId date v now).1.spent = v := by
  cases hfind : s.daily.find? (dailyKeyMatch planId date) with
  | some e => simp only [upsertDailySpending, hfind]
  | none => simp only [upsertDailySpending, hfind]

/-- Upserting preserves both unique constraints of the table. -/
theorem upsert_preserves_unique (s : Store) (planId : ℕ) (date v : String)
    (now : ℤ) (hu : dailyUnique s) (hf : dailyFresh s) :
    dailyUnique (upsertDailySpending s planId date v now).2 := by
  unfold dailyUnique at *
  cases hfind : s.daily.find? (dailyKeyMatch planId date) with
  | some e =>
    have he := List.mem_of_find?_eq_some hfind
    simp only [upsertDailySpending, hfind]
    rw [update_map_eq s.daily hu e _ he, List.pairwise_map]
    refine hu.imp_of_mem ?_
    intro a b ha hb hab
    by_cases h1 : a = e <;> by_cases h2 : b = e
    · exact absurd (h1.trans h2.symm ▸ rfl) hab.1
    · subst h1
      simp only [if_pos rfl, if_neg h2]
      exact hab
    · subst h2
      simp only [if_pos rfl, if_neg h1]
      exact hab
    · simp only [if_neg h1, if_neg h2]
      exact hab
  | none =>
    simp only [upsertDailySpending, hfind]
    rw [List.pairwise_append]
    refine ⟨hu, List.pairwise_singleton _ _, ?_⟩
    intro a ha b hb
    rw [List.mem_singleton] at hb
    subst hb
    rw [List.find?_eq_none] at hfind
    constructor
    · have := hf a ha
      intro hh
      rw [hh] at this
      exact absurd this (by simp)
    · intro hkey
      exact hfind a ha (by
        simp only [dailyKeyMatch, Bool.and_eq_true, beq_iff_eq]
        exact ⟨hkey.1, hkey.2⟩)

/-- Upserting preserves serial-id freshness. -/
theorem upsert_preserves_fresh (s : Store) (planId : ℕ) (date v : String)
    (now : ℤ) (hf : dailyFresh s) :
    dailyFresh (upsertDailySpending s planId date v now).2 := by
  unfold dailyFresh at *
  cases hfind : s.daily.find? (dailyKeyMatch planId date) with
  | some e =>
    have he := List.mem_of_find?_eq_some hfind
    simp only [upsertDailySpending, hfind]
    intro r hr
    rw [List.mem_map] at hr
    obtain ⟨a, ha, rfl⟩ := hr
    by_cases h : a.id == e.id
    · simp only [h, if_true]
      exact hf e he
    · simp only [h, if_false]
      exact hf a ha
  | none =>
    simp only [upsertDailySpending, hfind]
    intro r hr
    rw [List.mem_append] at hr
    rcases hr with hr | hr
    · exact Nat.lt_succ_of_lt (hf r hr)
    · rw [List.mem_singleton] at hr
      subst hr
      exact Nat.lt_succ_self _

/-- C6: under the table's unique constraints, upserting the same
`(planId, date, v)` twice leaves exactly one row for that key, carrying
`spent = v`; an upsert that finds an existing row updates in place (row
count unchanged); and a `getOrCreatePlan` for an existing `(year, month)`
returns the existing row and leaves the store unchanged. -/
theorem upsert_idempotent_no_duplicates (s : Store) (planId : ℕ)
    (date v : String) (n1 n2 : ℤ) (hu : dailyUnique s) (hf : dailyFresh s) :
    ((upsertDailySpending (upsertDailySpending s planId date v n1).2
        planId date v n2).2.daily.filter (dailyKeyMatch planId date)).map
      (fun r => r.spent) = [v]
    ∧ (∀ e ∈ s.daily, dailyKeyMatch planId date e = true →
        (upsertDailySpending s planId date v n1).2.daily.length = s.daily.length)
    ∧ (∀ (y m now : ℤ) (p : PlanRow),
        s.plans.find? (fun q => q.year == y && q.month == m) = some p →
        (getOrCreatePlan s y m now).2 = s ∧ (getOrCreatePlan s y m now).1 = p) := by
  refine ⟨?_, ?_, ?_⟩
  · rw [upsert_filter _ _ _ _ _ (upsert_preserves_unique s planId date v n1 hu hf)]
    rw [List.map_singleton, upsert_spent]
  · intro e he hm
    have hne : s.daily.find? (dailyKeyMatch planId date) ≠ none := by
      intro hnone
      rw [List.find?_eq_none] at hnone
      exact hnone e he hm
    cases hfind : s.daily.find? (dailyKeyMatch planId date) with
    | none => exact absurd hfind hne
    | some ex =>
      simp only [upsertDailySpending, hfind]
      exact List.length_map _ _
  · intro y m now p hp
    simp [getOrCreatePlan, hp]

/-- Witness for C6: starting from a store with one plan and no daily rows,
two upserts of `("2025-09-01", "50")` leave exactly one matching row with
`spent = "50"`, and re-creating the existing `(2025, 8)` plan leaves the
store unchanged. -/
theorem upsert_idempotent_no_duplicates_witness :
    (((upsertDailySpending (upsertDailySpending
        ⟨[⟨1, 2025, 8, "3000", "0", 5, 5⟩], [], 2, 1⟩ 1 "2025-09-01" "50" 6).2
        1 "2025-09-01" "50" 7).2.daily.filter (dailyKeyMatch 1 "2025-09-01")).map
      (fun r => r.spent) = ["50"])
    ∧ (getOrCreatePlan ⟨[⟨1, 2025, 8, "3000", "0", 5, 5⟩], [], 2, 1⟩ 2025 8 9).2 =
        ⟨[⟨1, 2025, 8, "3000", "0", 5, 5⟩], [], 2, 1⟩ := by
  have hu : dailyUnique (⟨[⟨1, 2025, 8, "3000", "0", 5, 5⟩], [], 2, 1⟩ : Store) :=
    List.Pairwise.nil
  have hf : dailyFresh (⟨[⟨1, 2025, 8, "3000", "0", 5, 5⟩], [], 2, 1⟩ : Store) := by
    intro r hr
    exact absurd hr (List.not_mem_nil r)
  refine ⟨(upsert_idempotent_no_duplicates _ 1 "2025-09-01" "50" 6 7 hu hf).1, ?_⟩
  exact ((upsert_idempotent_no_duplicates
    (⟨[⟨1, 2025, 8, "3000", "0", 5, 5⟩], [], 2, 1⟩ : Store) 1 "2025-09-01" "50" 6 7
    hu hf).2.2 2025 8 9 ⟨1, 2025, 8, "3000", "0", 5, 5⟩ (by decide)).1
